import Mathlib

/-!
# Robot Sensor Data Visualizer — verification of the spec's claims

A shallow embedding of the two Python sources of the repository
(`src/app.py`, `src/generate_password_hash.py`) and proofs settling the
claims of the specification against it.

Conventions of the embedding:
* Python dicts become insertion-ordered association lists (`List (κ × ν)`).
* Numeric sensor data is embedded over `ℚ`; the numpy population standard
  deviation `arr.std()` is carried as its square (the population variance),
  which stays rational — `std = √ var` and the sample-vs-population
  distinction lives entirely in the variance's divisor.
* Python indexing that can raise `IndexError` is embedded as
  `Except String` with a checked access `pyGet`.
-/

set_option autoImplicit false

namespace RobotViz

/-- A listed file as produced by `list_json_files_from_gdrive`:
`{'id': ..., 'name': ..., 'path': ...}`. -/
structure FileRecord where
  id : String
  name : String
  path : String
deriving DecidableEq, Repr

/-- One node of the sidebar folder tree: the Python dict
`{'_folders': {segment: node}, '_files': [records]}` built in `main`
(src/app.py lines 396-418), dicts embedded as insertion-ordered
association lists. -/
inductive FolderNode : Type where
  | mk (folders : List (String × FolderNode)) (files : List FileRecord)

/-- The `'_folders'` entry of a node. -/
def FolderNode.folders : FolderNode → List (String × FolderNode)
  | .mk fs _ => fs

/-- The `'_files'` entry of a node. -/
def FolderNode.files : FolderNode → List FileRecord
  | .mk _ gs => gs

/-- `{'_folders': {}, '_files': []}`. -/
def emptyNode : FolderNode := .mk [] []

/-- Python-dict get-or-create-then-update with insertion order kept:
`if key not in current: current[key] = emptyNode` followed by an in-place
update of `current[key]` by `f`. -/
def updEntry (key : String) (f : FolderNode → FolderNode) :
    List (String × FolderNode) → List (String × FolderNode)
  | [] => [(key, f emptyNode)]
  | (k, v) :: rest =>
    if k = key then (k, f v) :: rest else (k, v) :: updEntry key f rest

/-- The body of the tree-building loop in `main` for one record whose path
holds at least one `/`: walk/create nodes along `segs = path_parts[:-1]`
(each step descends into `current[part]['_folders']`), and in the dict the
walk ends at, get-or-create the key `parent = path_parts[-2]` and append the
record to that node's `_files`. -/
def addToFolders (parent : String) (r : FileRecord) :
    List String → List (String × FolderNode) → List (String × FolderNode)
  | [], d => updEntry parent (fun n => .mk n.folders (n.files ++ [r])) d
  | s :: rest, d =>
    updEntry s (fun n => .mk (addToFolders parent r rest n.folders) n.files) d

/-- Python `str.split(sep)` over the character list: split at every
separator, keeping empty segments (`"".split('/') == ['']`). -/
def splitCharsOn (sep : Char) : List Char → List (List Char)
  | [] => [[]]
  | c :: cs =>
    let rest := splitCharsOn sep cs
    if c = sep then [] :: rest
    else (c :: rest.headD []) :: rest.tail

/-- `file_info['path'].split('/')`. -/
def splitPath (s : String) : List String :=
  (splitCharsOn '/' s.data).map String.mk

/-- The top-level `folder_tree` dict of `main`: its segment keys, plus the
`'_root_files'` entry files with a single-segment path are appended to. -/
structure TreeRoot where
  folders : List (String × FolderNode)
  rootFiles : List FileRecord

/-- One iteration of the tree-building loop of `main` (src/app.py lines
398-418) for the record `r`. -/
def addRecord (t : TreeRoot) (r : FileRecord) : TreeRoot :=
  let parts := splitPath r.path
  if parts.length > 1 then
    { t with
      folders := addToFolders (parts.getD (parts.length - 2) "") r
        parts.dropLast t.folders }
  else
    { t with rootFiles := t.rootFiles ++ [r] }

/-- The whole tree construction: `for file_info in json_files: ...` starting
from the empty dict. -/
def buildTree (records : List FileRecord) : TreeRoot :=
  records.foldl addRecord { folders := [], rootFiles := [] }

/-- The record `{path: "a/b/x.json"}` of the claim's input. -/
def recX : FileRecord := ⟨"idX", "x.json", "a/b/x.json"⟩

/-- The record `{path: "a/c/y.json"}` of the claim's input. -/
def recY : FileRecord := ⟨"idY", "y.json", "a/c/y.json"⟩

/-- The path of the claim's first record splits into its three segments. -/
theorem splitPath_demo : splitPath "a/b/x.json" = ["a", "b", "x.json"] := by
  decide

/-- C1 (the code evaluated at the claim's input): building the tree from
`{path:"a/b/x.json"}` and `{path:"a/c/y.json"}` does yield a single root
child `a` with exactly the children `b` and `c` — but the `_files` lists of
`b` and `c` are empty: each record is appended one level deeper, to a
freshly created duplicate child of the same name (`a/b/b`, `a/c/c`),
because the walk has already descended into the last folder's `_folders`
dict before the key `path_parts[-2]` is looked up again there. -/
theorem c1_build_buries_files_one_level_too_deep :
    buildTree [recX, recY] =
      { folders := [("a", .mk
          [("b", .mk [("b", .mk [] [recX])] []),
           ("c", .mk [("c", .mk [] [recY])] [])] [])],
        rootFiles := [] } := by rfl

/-! ## Prev/next navigation over the flat listing

`main` keeps the flat, path-sorted `json_files` list and computes
`current_idx = next((i for i, f in enumerate(json_files) if f['id'] ==
selected_file['id']), None)`; the `Prev`/`Next` buttons are disabled at the
ends and otherwise select `json_files[current_idx ∓ 1]`
(src/app.py lines 489-499). -/

/-- `next((i for i, f in enumerate(files) if f['id'] == wanted), None)`. -/
def firstIdxWithId (wanted : String) : List FileRecord → Option Nat
  | [] => none
  | f :: rest =>
    if f.id = wanted then some 0
    else (firstIdxWithId wanted rest).map (· + 1)

/-- The `Next ➡️` button: disabled at `current_idx == len(json_files) - 1`,
otherwise selects `json_files[current_idx + 1]`; nothing happens when the
selected id is not in the listing. -/
def selectNext (files : List FileRecord) (sel : FileRecord) : FileRecord :=
  match firstIdxWithId sel.id files with
  | none => sel
  | some i => if i = files.length - 1 then sel else files.getD (i + 1) sel

/-- The `⬅️ Prev` button: disabled at `current_idx == 0`, otherwise selects
`json_files[current_idx - 1]`. -/
def selectPrev (files : List FileRecord) (sel : FileRecord) : FileRecord :=
  match firstIdxWithId sel.id files with
  | none => sel
  | some i => if i = 0 then sel else files.getD (i - 1) sel

/-- Modelled from the spec: the "currently displayed folder listing" of a
selected file — the files sharing the selected file's parent folder (equal
path segments before the file name), in the sidebar's displayed order
(sorted by `name`). -/
def folderListing (files : List FileRecord) (sel : FileRecord) : List FileRecord :=
  (files.filter fun f =>
      (splitPath f.path).dropLast = (splitPath sel.path).dropLast).insertionSort
    fun a b => a.name ≤ b.name

/-- Modelled from the spec: `SelectRelative(+1)` over the folder-scoped
listing — move to the following file of that listing, no-op at its end. -/
def folderScopedNext (files : List FileRecord) (sel : FileRecord) : FileRecord :=
  let listing := folderListing files sel
  match firstIdxWithId sel.id listing with
  | none => sel
  | some i => if i = listing.length - 1 then sel else listing.getD (i + 1) sel

/-- `List.getD` at an index below the length is `List.get`. -/
theorem getD_of_lt {α : Type} (l : List α) (i : Nat) (d : α) (h : i < l.length) :
    l.getD i d = l.get ⟨i, h⟩ := by
  induction l generalizing i with
  | nil => exact absurd h (by simp)
  | cons a t ih =>
    cases i with
    | zero => rfl
    | succ n => exact ih n (Nat.lt_of_succ_lt_succ h)

/-- With pairwise-distinct ids, the generator finds the selected file's own
position. -/
theorem firstIdxWithId_get (files : List FileRecord) (i : Nat)
    (hi : i < files.length)
    (hu : files.Pairwise fun a b => a.id ≠ b.id) :
    firstIdxWithId (files.get ⟨i, hi⟩).id files = some i := by
  induction files generalizing i with
  | nil => exact absurd hi (by simp)
  | cons f rest ih =>
    rcases List.pairwise_cons.mp hu with ⟨hf, hrest⟩
    cases i with
    | zero => simp [firstIdxWithId]
    | succ n =>
      have hn : n < rest.length := Nat.lt_of_succ_lt_succ hi
      have hmem : rest.get ⟨n, hn⟩ ∈ rest := by simp [List.get_mem]
      have hne : ¬ f.id = (rest.get ⟨n, hn⟩).id := hf _ hmem
      have htail : (f :: rest).get ⟨n + 1, hi⟩ = rest.get ⟨n, hn⟩ := rfl
      simp only [firstIdxWithId, htail, hne, if_false, ih n hn hrest]
      rfl

/-- How `Next` acts on the file at position `i` of a listing with
pairwise-distinct ids: move one step forward, clamped at the end. -/
theorem selectNext_get (files : List FileRecord) (i : Nat) (hi : i < files.length)
    (hu : files.Pairwise fun a b => a.id ≠ b.id) :
    selectNext files (files.get ⟨i, hi⟩) =
      if h : i + 1 < files.length then files.get ⟨i + 1, h⟩
      else files.get ⟨i, hi⟩ := by
  have hfind := firstIdxWithId_get files i hi hu
  simp only [List.get_eq_getElem] at hfind ⊢
  by_cases h : i + 1 < files.length
  · rw [dif_pos h]
    have hne : ¬ i = files.length - 1 := by omega
    simp [selectNext, hfind, hne, List.getElem?_eq_getElem h]
  · rw [dif_neg h]
    have heq : i = files.length - 1 := by omega
    simp only [selectNext, hfind]
    rw [if_pos heq]

/-- How `Prev` acts on the file at position `i` of a listing with
pairwise-distinct ids: move one step back, clamped at the start. -/
theorem selectPrev_get (files : List FileRecord) (i : Nat) (hi : i < files.length)
    (hu : files.Pairwise fun a b => a.id ≠ b.id) :
    selectPrev files (files.get ⟨i, hi⟩) =
      if 0 < i then files.get ⟨i - 1, Nat.lt_of_le_of_lt (Nat.sub_le i 1) hi⟩
      else files.get ⟨i, hi⟩ := by
  have hfind := firstIdxWithId_get files i hi hu
  simp only [List.get_eq_getElem] at hfind ⊢
  by_cases h : 0 < i
  · rw [if_pos h]
    have hne : ¬ i = 0 := by omega
    simp [selectPrev, hfind, hne,
      List.getElem?_eq_getElem (Nat.lt_of_le_of_lt (Nat.sub_le i 1) hi)]
  · rw [if_neg h]
    have heq : i = 0 := by omega
    simp only [selectPrev, hfind]
    rw [if_pos heq]

/-- C2 (counterexample): with the listing `[a/b/x.json, a/c/y.json]` and
`x.json` selected, the folder-scoped listing holds only `x.json`, so the
claimed folder-scoped `Next` is a no-op there — but the button moves to
`y.json`, a file of a different folder: navigation follows the global
flattened ordering, not the displayed folder listing. -/
theorem c2_counterexample_next_leaves_folder_listing :
    selectNext [recX, recY] recX = recY ∧
    folderScopedNext [recX, recY] recX = recX ∧
    recY ≠ recX := by decide

/-- C2 (amended): `SelectRelative(±1)` moves to the adjacent file in the
global flattened listing `json_files` (all files, sorted by path), and
moving past either end of that global listing is a no-op (clamped, not
wrapped). -/
theorem c2_navigation_moves_in_global_listing (files : List FileRecord)
    (i : Nat) (hi : i < files.length)
    (hu : files.Pairwise fun a b => a.id ≠ b.id) :
    (∀ h : i + 1 < files.length,
      selectNext files (files.get ⟨i, hi⟩) = files.get ⟨i + 1, h⟩) ∧
    (i + 1 = files.length →
      selectNext files (files.get ⟨i, hi⟩) = files.get ⟨i, hi⟩) ∧
    (0 < i →
      selectPrev files (files.get ⟨i, hi⟩) =
        files.get ⟨i - 1, Nat.lt_of_le_of_lt (Nat.sub_le i 1) hi⟩) ∧
    (i = 0 → selectPrev files (files.get ⟨i, hi⟩) = files.get ⟨i, hi⟩) := by
  refine ⟨fun h => ?_, fun h => ?_, fun h => ?_, fun h => ?_⟩
  · rw [selectNext_get files i hi hu, dif_pos h]
  · rw [selectNext_get files i hi hu, dif_neg (by omega)]
  · rw [selectPrev_get files i hi hu, if_pos h]
  · rw [selectPrev_get files i hi hu, if_neg (by omega)]

/-- C2 witness: the amended navigation at the concrete two-file listing. -/
theorem c2_navigation_moves_in_global_listing_witness :
    selectNext [recX, recY] recX = recY ∧
    selectPrev [recX, recY] recX = recX := by
  have h := c2_navigation_moves_in_global_listing [recX, recY] 0
    (by decide) (by decide)
  exact ⟨h.1 (by decide), h.2.2.2 rfl⟩

/-- C8: `Next` then `Prev` returns to the originally selected file, except
when the selection already sits at the end of the listing, where `Next` is a
no-op — there the composite steps one file back, or stays put when the end
is also the start. -/
theorem c8_next_then_prev_roundtrip (files : List FileRecord) (i : Nat)
    (hi : i < files.length)
    (hu : files.Pairwise fun a b => a.id ≠ b.id) :
    (i + 1 < files.length →
      selectPrev files (selectNext files (files.get ⟨i, hi⟩)) =
        files.get ⟨i, hi⟩) ∧
    (i + 1 = files.length → 0 < i →
      selectPrev files (selectNext files (files.get ⟨i, hi⟩)) =
        files.get ⟨i - 1, Nat.lt_of_le_of_lt (Nat.sub_le i 1) hi⟩) ∧
    (i + 1 = files.length → i = 0 →
      selectPrev files (selectNext files (files.get ⟨i, hi⟩)) =
        files.get ⟨i, hi⟩) := by
  refine ⟨fun h => ?_, fun h h0 => ?_, fun h h0 => ?_⟩
  · rw [selectNext_get files i hi hu, dif_pos h,
      selectPrev_get files (i + 1) h hu, if_pos (Nat.succ_pos i)]
    rfl
  · rw [selectNext_get files i hi hu, dif_neg (by omega),
      selectPrev_get files i hi hu, if_pos h0]
  · rw [selectNext_get files i hi hu, dif_neg (by omega),
      selectPrev_get files i hi hu, if_neg (by omega)]

/-- C8 witness: the composite at the start and at the end of the concrete
two-file listing. -/
theorem c8_next_then_prev_roundtrip_witness :
    selectPrev [recX, recY] (selectNext [recX, recY] recX) = recX ∧
    selectPrev [recX, recY] (selectNext [recX, recY] recY) = recX := by
  have h0 := c8_next_then_prev_roundtrip [recX, recY] 0 (by decide) (by decide)
  have h1 := c8_next_then_prev_roundtrip [recX, recY] 1 (by decide) (by decide)
  exact ⟨h0.1 (by decide), h1.2.1 rfl (by decide)⟩

/-! ## The render pipeline

Pure embeddings of `plot_wrist_pose`, `plot_joint_states`,
`plot_tactile_data` and `plot_all_tactile_comparison`, with the
`data[field]` lookup already performed. -/

/-- Checked Python/numpy indexing `xs[i]`: `IndexError` when out of range
(every index reaching these functions is a non-negative slider or loop
value). -/
def pyGet {α : Type} (xs : List α) (i : Nat) : Except String α :=
  if h : i < xs.length then .ok (xs.get ⟨i, h⟩) else .error "IndexError"

/-- `rows[:, j]`: the `j`-th column of a rectangular array. -/
def column (rows : List (List ℚ)) (j : Nat) : List ℚ :=
  rows.map fun row => row.getD j 0

/-- A column entry of an array is the corresponding row entry. -/
theorem column_getD (rows : List (List ℚ)) (i j : Nat) (hi : i < rows.length) :
    (column rows j).getD i 0 = (rows.get ⟨i, hi⟩).getD j 0 := by
  induction rows generalizing i with
  | nil => exact absurd hi (by simp)
  | cons r rest ih =>
    cases i with
    | zero => rfl
    | succ n => exact ih n (Nat.lt_of_succ_lt_succ hi)

/-- `getD` through `map` over `range`. -/
theorem getD_map_range {α : Type} (n : Nat) (g : Nat → α) (i : Nat) (d : α)
    (h : i < n) :
    ((List.range n).map g).getD i d = g i := by
  have hlen : i < ((List.range n).map g).length := by simp [h]
  rw [getD_of_lt _ i d hlen]
  simp [List.get_eq_getElem]

/-- What `plot_wrist_pose` renders: the two single-frame `st.metric` value
lists (position from columns 0..2, quaternion from columns 3..6, labelled
`(w, x, y, z)`), or the 7 labelled time-series traces. -/
inductive WristPoseView : Type where
  | frameMetrics (position : List ℚ) (quaternion : List ℚ)
  | timeSeriesLines (series : List (String × List ℚ))
deriving DecidableEq, Repr

/-- `plot_wrist_pose` (src/app.py lines 127-169), with
`data[f'{side}_wrist_pose']` already extracted as `poses`. -/
def plot_wrist_pose (poses : List (List ℚ)) (frame_idx : Option Nat) :
    Except String WristPoseView :=
  match frame_idx with
  | some i => do
    let pose ← pyGet poses i
    let p0 ← pyGet pose 0
    let p1 ← pyGet pose 1
    let p2 ← pyGet pose 2
    let p3 ← pyGet pose 3
    let p4 ← pyGet pose 4
    let p5 ← pyGet pose 5
    let p6 ← pyGet pose 6
    .ok (.frameMetrics [p0, p1, p2] [p3, p4, p5, p6])
  | none =>
    .ok (.timeSeriesLines
      [("x", column poses 0), ("y", column poses 1), ("z", column poses 2),
       ("w", column poses 3), ("x", column poses 4), ("y", column poses 5),
       ("z", column poses 6)])

/-- `Except`: binding a success just applies the continuation. -/
theorem ok_bind {ε α β : Type} (a : α) (f : α → Except ε β) :
    (Except.ok a >>= f : Except ε β) = f a := rfl

/-- C5: round-trip between the two wrist-pose modes — over rectangular
`[F,7]` data and any valid frame `i`, the 7 frame-mode values (3 position
components from columns 0..2, then the quaternion from columns 3..6 in
`w,x,y,z` label order) are exactly the `i`-th elements of the 7 time-series
series. -/
theorem c5_wrist_pose_roundtrip (poses : List (List ℚ)) (i : Nat)
    (hi : i < poses.length) (h7 : ∀ row ∈ poses, row.length = 7) :
    ∃ series, plot_wrist_pose poses none = .ok (.timeSeriesLines series) ∧
      series.map Prod.fst = ["x", "y", "z", "w", "x", "y", "z"] ∧
      series.length = 7 ∧
      (∀ s ∈ series, s.2.length = poses.length) ∧
      plot_wrist_pose poses (some i) =
        .ok (.frameMetrics
          [(series.getD 0 ("", [])).2.getD i 0,
           (series.getD 1 ("", [])).2.getD i 0,
           (series.getD 2 ("", [])).2.getD i 0]
          [(series.getD 3 ("", [])).2.getD i 0,
           (series.getD 4 ("", [])).2.getD i 0,
           (series.getD 5 ("", [])).2.getD i 0,
           (series.getD 6 ("", [])).2.getD i 0]) := by
  have hrow : (poses.get ⟨i, hi⟩).length = 7 := h7 _ (by simp [List.get_mem])
  have e0 : pyGet poses i = .ok (poses.get ⟨i, hi⟩) := dif_pos hi
  have e : ∀ j, j < 7 → pyGet (poses.get ⟨i, hi⟩) j =
      .ok ((poses.get ⟨i, hi⟩).getD j 0) := by
    intro j h
    have hj : j < (poses.get ⟨i, hi⟩).length := by omega
    rw [getD_of_lt _ j 0 hj]
    exact dif_pos hj
  have hcomp : ∀ j, (column poses j).getD i 0 = (poses.get ⟨i, hi⟩).getD j 0 :=
    fun j => column_getD poses i j hi
  refine ⟨_, rfl, by simp, by simp, by simp [column], ?_⟩
  simp only [plot_wrist_pose, e0, ok_bind, e 0 (by norm_num), e 1 (by norm_num),
    e 2 (by norm_num), e 3 (by norm_num), e 4 (by norm_num), e 5 (by norm_num),
    e 6 (by norm_num)]
  rw [← hcomp 0, ← hcomp 1, ← hcomp 2, ← hcomp 3, ← hcomp 4, ← hcomp 5,
    ← hcomp 6]
  simp [List.getD]

/-- The concrete one-frame pose sequence of the C5 witness. -/
def demoPoses : List (List ℚ) := [[1, 2, 3, 4, 5, 6, 7]]

/-- C5 witness: the round-trip at a concrete `[1,7]` pose array, frame 0. -/
theorem c5_wrist_pose_roundtrip_witness :
    ∃ series, plot_wrist_pose demoPoses none = .ok (.timeSeriesLines series) ∧
      series.map Prod.fst = ["x", "y", "z", "w", "x", "y", "z"] ∧
      series.length = 7 ∧
      (∀ s ∈ series, s.2.length = demoPoses.length) ∧
      plot_wrist_pose demoPoses (some 0) =
        .ok (.frameMetrics
          [(series.getD 0 ("", [])).2.getD 0 0,
           (series.getD 1 ("", [])).2.getD 0 0,
           (series.getD 2 ("", [])).2.getD 0 0]
          [(series.getD 3 ("", [])).2.getD 0 0,
           (series.getD 4 ("", [])).2.getD 0 0,
           (series.getD 5 ("", [])).2.getD 0 0,
           (series.getD 6 ("", [])).2.getD 0 0]) :=
  c5_wrist_pose_roundtrip demoPoses 0 (by decide) (by decide)

/-! ## Tactile rendering -/

/-- `arr.min()` over a 1-D numpy array (a plain extremum; the arrays
reaching it are non-empty). -/
def npMin : List ℚ → ℚ
  | [] => 0
  | x :: xs => xs.foldl min x

/-- `arr.max()`. -/
def npMax : List ℚ → ℚ
  | [] => 0
  | x :: xs => xs.foldl max x

/-- `arr.mean()`. -/
def npMean (xs : List ℚ) : ℚ := xs.sum / xs.length

/-- `arr.std()` squared: numpy's population variance (default `ddof = 0`,
divisor `n`, not the Bessel-corrected `n - 1`); the displayed standard
deviation is its square root, carried squared here to stay rational. -/
def npVarPop (xs : List ℚ) : ℚ := npMean (xs.map fun x => (x - npMean xs) ^ 2)

/-- numpy `arr.T` of a rectangular `[F,S]` array read as a list of `F` rows:
the `[S,F]` array whose entry `(s, f)` is `arr[f][s]`, the sensor count `S`
read off row 0 as numpy's shape is. -/
def npTranspose (t : List (List ℚ)) : List (List ℚ) :=
  (List.range (t.headD []).length).map fun s => column t s

/-- What `plot_tactile_data` renders: the no-data warning, the single-frame
heatmap row with its `Min/Max/Mean/Std` metrics (`Std` being `√ varPop`), or
the transposed time-series heatmap with the
`Num Frames / Num Sensors / Total Data Points` metrics. -/
inductive TactileView : Type where
  | unavailable
  | frameHeatmap (heat : List ℚ) (hmin hmax hmean varPop : ℚ)
  | seriesHeatmap (grid : List (List ℚ)) (numFrames numSensors totalPoints : Nat)
deriving DecidableEq, Repr

/-- `plot_tactile_data` (src/app.py lines 201-259), with
`data[f'{side}_{sensor_type}_tactile']` already extracted as `tactile`;
`.size` of a rectangular numpy array is the product of its shape. -/
def plot_tactile_data (tactile : List (List ℚ)) (frame_idx : Option Nat) :
    Except String TactileView :=
  if tactile.length = 0 ∨ (tactile.headD []).length = 0 then
    .ok .unavailable
  else
    match frame_idx with
    | some i => do
      let tf ← pyGet tactile i
      .ok (.frameHeatmap tf (npMin tf) (npMax tf) (npMean tf) (npVarPop tf))
    | none =>
      .ok (.seriesHeatmap (npTranspose tactile) tactile.length
        (tactile.headD []).length
        (tactile.length * (tactile.headD []).length))

/-- C10: with zero frames (`F = 0`, the outer list empty) the tactile
renderer returns the no-data result in every mode — it never indexes into
the empty frame axis, so the empty-frame edge case raises no `IndexError`. -/
theorem c10_tactile_zero_frames_unavailable (frame_idx : Option Nat) :
    plot_tactile_data [] frame_idx = .ok .unavailable := by
  cases frame_idx <;> rfl

/-- C6: over a `[5,8]` tactile array, frame mode at index 2 renders the
heatmap of row 2 (length 8) together with min, max, mean and the population
variance — divisor `8`, not the Bessel-corrected `7` — computed directly
over row 2; over a `[5,0]` array it is unavailable for every frame index. -/
theorem c6_tactile_frame_stats :
    (∀ t : List (List ℚ), t.length = 5 → (∀ row ∈ t, row.length = 8) →
      plot_tactile_data t (some 2) =
        .ok (.frameHeatmap (t.getD 2 [])
          (npMin (t.getD 2 [])) (npMax (t.getD 2 []))
          ((t.getD 2 []).sum / 8)
          (((t.getD 2 []).map fun x => (x - (t.getD 2 []).sum / 8) ^ 2).sum / 8) ) ∧
      (t.getD 2 []).length = 8) ∧
    (∀ t : List (List ℚ), t.length = 5 → (∀ row ∈ t, row.length = 0) →
      ∀ frame_idx, plot_tactile_data t frame_idx = .ok .unavailable) := by
  constructor
  · intro t h5 h8
    have h2 : 2 < t.length := by omega
    have hget : t.getD 2 [] = t.get ⟨2, h2⟩ := getD_of_lt t 2 [] h2
    have hrow : (t.getD 2 []).length = 8 := by
      rw [hget]; exact h8 _ (by simp [List.get_mem])
    have hhead : (t.headD []).length = 8 := by
      cases t with
      | nil => simp at h5
      | cons r rest => exact h8 r (by simp)
    have hguard : ¬ (t.length = 0 ∨ (t.headD []).length = 0) := by omega
    have e2 : pyGet t 2 = .ok (t.getD 2 []) := by rw [hget]; exact dif_pos h2
    have hmean : npMean (t.getD 2 []) = (t.getD 2 []).sum / 8 := by
      rw [npMean, hrow]; norm_num
    have hvar : npVarPop (t.getD 2 []) =
        ((t.getD 2 []).map fun x => (x - (t.getD 2 []).sum / 8) ^ 2).sum / 8 := by
      rw [npVarPop, hmean, npMean, List.length_map, hrow]; norm_num
    refine ⟨?_, hrow⟩
    simp only [plot_tactile_data, if_neg hguard, e2, ok_bind, hmean, hvar]
  · intro t h5 h0 frame_idx
    have hhead : (t.headD []).length = 0 := by
      cases t with
      | nil => simp at h5
      | cons r rest => exact h0 r (by simp)
    have hguard : t.length = 0 ∨ (t.headD []).length = 0 := Or.inr hhead
    simp only [plot_tactile_data, if_pos hguard]

/-- C7: time-series mode over a rectangular `[F,S]` array with `F, S > 0`:
the heatmap grid is the transpose — `S` rows of length `F`, the entry
`(s, f)` being `t[f][s]` — and the summary metrics are `F`, `S` and `F*S`. -/
theorem c7_tactile_series_transpose (t : List (List ℚ)) (S : Nat)
    (hF : 0 < t.length) (hS : 0 < S) (hrect : ∀ row ∈ t, row.length = S) :
    ∃ grid, plot_tactile_data t none =
        .ok (.seriesHeatmap grid t.length S (t.length * S)) ∧
      grid.length = S ∧
      (∀ row ∈ grid, row.length = t.length) ∧
      ∀ s f, s < S → f < t.length →
        (grid.getD s []).getD f 0 = (t.getD f []).getD s 0 := by
  have hhead : (t.headD []).length = S := by
    cases t with
    | nil => simp at hF
    | cons r rest => exact hrect r (by simp)
  have hguard : ¬ (t.length = 0 ∨ (t.headD []).length = 0) := by omega
  refine ⟨npTranspose t, ?_, ?_, ?_, ?_⟩
  · simp only [plot_tactile_data, if_neg hguard]
    rw [hhead]
  · simp only [npTranspose]
    rw [hhead]
    simp
  · intro row hrow
    simp only [npTranspose] at hrow
    rw [hhead] at hrow
    rcases List.mem_map.mp hrow with ⟨s, _, rfl⟩
    simp [column]
  · intro s f hs hf
    simp only [npTranspose]
    rw [hhead, getD_map_range S _ s [] hs,
      column_getD t f s hf, getD_of_lt t f [] hf]

/-- The concrete `[2,3]` tactile array of the C7 witness. -/
def demoTactile : List (List ℚ) := [[1, 2, 3], [4, 5, 6]]

/-- C7 witness: the transposed series heatmap at a concrete `[2,3]` array. -/
theorem c7_tactile_series_transpose_witness :
    ∃ grid, plot_tactile_data demoTactile none =
        .ok (.seriesHeatmap grid demoTactile.length 3 (demoTactile.length * 3)) ∧
      grid.length = 3 ∧
      (∀ row ∈ grid, row.length = demoTactile.length) ∧
      ∀ s f, s < 3 → f < demoTactile.length →
        (grid.getD s []).getD f 0 = (demoTactile.getD f []).getD s 0 :=
  c7_tactile_series_transpose demoTactile 3 (by decide) (by decide) (by decide)

/-! ## The all-sensors comparison grid -/

/-- The four tactile arrays of one hand, in the site order of the loop in
`plot_all_tactile_comparison`. -/
structure TactileSet where
  finger_0 : List (List ℚ)
  finger_1 : List (List ℚ)
  finger_2 : List (List ℚ)
  palm : List (List ℚ)
deriving DecidableEq, Repr

/-- The site arrays in the loop order
`['finger_0', 'finger_1', 'finger_2', 'palm']`. -/
def TactileSet.sites (d : TactileSet) : List (List (List ℚ)) :=
  [d.finger_0, d.finger_1, d.finger_2, d.palm]

/-- One grid cell of `plot_all_tactile_comparison`: `none` when the site has
no data (no trace is added at its position), otherwise the heat row
`tactile[frame_idx]` with the `showscale=(idx == 3)` legend flag. -/
def compCell (tactile : List (List ℚ)) (frame_idx idx : Nat) :
    Except String (Option (List ℚ × Bool)) :=
  if 0 < tactile.length ∧ 0 < (tactile.headD []).length then do
    let tf ← pyGet tactile frame_idx
    .ok (some (tf, idx == 3))
  else
    .ok none

/-- `plot_all_tactile_comparison` (src/app.py lines 261-296): the four grid
cells of the 2×2 figure, in the fixed site order. -/
def plot_all_tactile_comparison (d : TactileSet) (frame_idx : Nat) :
    Except String (List (Option (List ℚ × Bool))) := do
  let c0 ← compCell d.finger_0 frame_idx 0
  let c1 ← compCell d.finger_1 frame_idx 1
  let c2 ← compCell d.finger_2 frame_idx 2
  let c3 ← compCell d.palm frame_idx 3
  .ok [c0, c1, c2, c3]

/-- What one site contributes: an empty cell without data, otherwise the
selected frame's row with the legend flag exactly at the palm position. -/
theorem compCell_eq (tactile : List (List ℚ)) (frame_idx idx : Nat)
    (hin : 0 < tactile.length → frame_idx < tactile.length) :
    compCell tactile frame_idx idx =
      .ok (if 0 < tactile.length ∧ 0 < (tactile.headD []).length then
        some (tactile.getD frame_idx [], idx == 3) else none) := by
  by_cases h : 0 < tactile.length ∧ 0 < (tactile.headD []).length
  · have hf : frame_idx < tactile.length := hin h.1
    have e : pyGet tactile frame_idx = .ok (tactile.getD frame_idx []) := by
      rw [getD_of_lt _ _ _ hf]
      exact dif_pos hf
    simp only [compCell, if_pos h, e, ok_bind]
  · simp only [compCell, if_neg h]

/-- C3 (counterexample): with data only at `finger_0` and an empty palm
site, the comparison still renders its one non-empty cell with legend flag
`false`: no cell at all carries the colour-scale legend, although the claim
promises exactly one (the last non-empty one) does. -/
theorem c3_counterexample_no_cell_carries_legend :
    plot_all_tactile_comparison ⟨[[1]], [], [], []⟩ 0 =
      .ok [some ([1], false), none, none, none] ∧
    ([some (([1] : List ℚ), false), none, none, none].countP
        fun c => (c.map Prod.snd).getD false) = 0 :=
  ⟨rfl, by decide⟩

/-- C3 (amended): the comparison always renders exactly 4 cells in the fixed
site order `[finger_0, finger_1, finger_2, palm]`; a site with no data
contributes an empty cell; the first three cells never carry the shared
colour-scale legend flag, and the palm (4th, last) cell carries it exactly
when the palm site has data — so when the palm is empty no cell carries the
legend at all. -/
theorem c3_comparison_grid_cells (d : TactileSet) (frame_idx : Nat)
    (hin : ∀ t ∈ d.sites, 0 < t.length → frame_idx < t.length) :
    ∃ c0 c1 c2 c3,
      plot_all_tactile_comparison d frame_idx = .ok [c0, c1, c2, c3] ∧
      (c0 = none ↔ ¬ (0 < d.finger_0.length ∧ 0 < (d.finger_0.headD []).length)) ∧
      (c1 = none ↔ ¬ (0 < d.finger_1.length ∧ 0 < (d.finger_1.headD []).length)) ∧
      (c2 = none ↔ ¬ (0 < d.finger_2.length ∧ 0 < (d.finger_2.headD []).length)) ∧
      (c3 = none ↔ ¬ (0 < d.palm.length ∧ 0 < (d.palm.headD []).length)) ∧
      (c0.map Prod.snd).getD false = false ∧
      (c1.map Prod.snd).getD false = false ∧
      (c2.map Prod.snd).getD false = false ∧
      ((c3.map Prod.snd).getD false = true ↔
        0 < d.palm.length ∧ 0 < (d.palm.headD []).length) := by
  have h0 := compCell_eq d.finger_0 frame_idx 0 (hin _ (by simp [TactileSet.sites]))
  have h1 := compCell_eq d.finger_1 frame_idx 1 (hin _ (by simp [TactileSet.sites]))
  have h2 := compCell_eq d.finger_2 frame_idx 2 (hin _ (by simp [TactileSet.sites]))
  have h3 := compCell_eq d.palm frame_idx 3 (hin _ (by simp [TactileSet.sites]))
  refine ⟨_, _, _, _,
    by simp only [plot_all_tactile_comparison, h0, h1, h2, h3, ok_bind]; rfl,
    ?_, ?_, ?_, ?_, ?_, ?_, ?_, ?_⟩
  · by_cases hc : 0 < d.finger_0.length ∧ 0 < (d.finger_0.headD []).length
    · rw [if_pos hc]
      exact iff_of_false (by simp) (not_not_intro hc)
    · rw [if_neg hc]
      exact iff_of_true rfl hc
  · by_cases hc : 0 < d.finger_1.length ∧ 0 < (d.finger_1.headD []).length
    · rw [if_pos hc]
      exact iff_of_false (by simp) (not_not_intro hc)
    · rw [if_neg hc]
      exact iff_of_true rfl hc
  · by_cases hc : 0 < d.finger_2.length ∧ 0 < (d.finger_2.headD []).length
    · rw [if_pos hc]
      exact iff_of_false (by simp) (not_not_intro hc)
    · rw [if_neg hc]
      exact iff_of_true rfl hc
  · by_cases hc : 0 < d.palm.length ∧ 0 < (d.palm.headD []).length
    · rw [if_pos hc]
      exact iff_of_false (by simp) (not_not_intro hc)
    · rw [if_neg hc]
      exact iff_of_true rfl hc
  · by_cases hc : 0 < d.finger_0.length ∧ 0 < (d.finger_0.headD []).length
    · rw [if_pos hc]
      rfl
    · rw [if_neg hc]
      rfl
  · by_cases hc : 0 < d.finger_1.length ∧ 0 < (d.finger_1.headD []).length
    · rw [if_pos hc]
      rfl
    · rw [if_neg hc]
      rfl
  · by_cases hc : 0 < d.finger_2.length ∧ 0 < (d.finger_2.headD []).length
    · rw [if_pos hc]
      rfl
    · rw [if_neg hc]
      rfl
  · by_cases hc : 0 < d.palm.length ∧ 0 < (d.palm.headD []).length
    · rw [if_pos hc]
      exact iff_of_true rfl hc
    · rw [if_neg hc]
      exact iff_of_false (by simp) hc

/-- The concrete sensor set of the C3 witness: data at `finger_0` and the
palm, nothing at `finger_1` and `finger_2`. -/
def demoSet : TactileSet := ⟨[[1]], [], [], [[2]]⟩

/-- C3 witness: the amended cell description at a concrete sensor set. -/
theorem c3_comparison_grid_cells_witness :
    ∃ c0 c1 c2 c3,
      plot_all_tactile_comparison demoSet 0 = .ok [c0, c1, c2, c3] ∧
      (c0 = none ↔ ¬ (0 < demoSet.finger_0.length ∧
        0 < (demoSet.finger_0.headD []).length)) ∧
      (c1 = none ↔ ¬ (0 < demoSet.finger_1.length ∧
        0 < (demoSet.finger_1.headD []).length)) ∧
      (c2 = none ↔ ¬ (0 < demoSet.finger_2.length ∧
        0 < (demoSet.finger_2.headD []).length)) ∧
      (c3 = none ↔ ¬ (0 < demoSet.palm.length ∧
        0 < (demoSet.palm.headD []).length)) ∧
      (c0.map Prod.snd).getD false = false ∧
      (c1.map Prod.snd).getD false = false ∧
      (c2.map Prod.snd).getD false = false ∧
      ((c3.map Prod.snd).getD false = true ↔
        0 < demoSet.palm.length ∧ 0 < (demoSet.palm.headD []).length) :=
  c3_comparison_grid_cells demoSet 0 (by decide)

/-! ## The main rendering sequence and its single error handler -/

/-- What `plot_joint_states` renders: one metric per joint for a single
frame, or one time-series trace per joint column. -/
inductive JointView : Type where
  | frameMetrics (values : List ℚ)
  | timeSeriesLines (series : List (List ℚ))
deriving DecidableEq, Repr

/-- `plot_joint_states` (src/app.py lines 171-199), with
`data[f'{side}_joint_states']` already extracted as `joints`; the column
count `joints.shape[1]` is read off row 0 of the rectangular array. -/
def plot_joint_states (joints : List (List ℚ)) (frame_idx : Option Nat) :
    Except String JointView :=
  match frame_idx with
  | some i => do
    let j ← pyGet joints i
    .ok (.frameMetrics j)
  | none =>
    .ok (.timeSeriesLines
      ((List.range (joints.headD []).length).map fun k => column joints k))

/-- The per-side sensor fields the tabs of `main` read. -/
structure SideData where
  wrist_pose : List (List ℚ)
  joint_states : List (List ℚ)
  tactile : TactileSet
deriving DecidableEq, Repr

/-- The renderable units of `main`'s try block in source order
(src/app.py lines 556-579): tab 1 wrist pose, tab 2 joint states, tab 3 the
three finger tactile views in loop order, tab 4 the palm tactile view,
tab 5 the all-sensors comparison (drawn only in single-frame mode). -/
def mainViews (d : SideData) (frame_idx : Option Nat) :
    List (String × Except String Unit) :=
  [("wrist_pose", (plot_wrist_pose d.wrist_pose frame_idx).map fun _ => ()),
   ("joint_states", (plot_joint_states d.joint_states frame_idx).map fun _ => ()),
   ("finger_0", (plot_tactile_data d.tactile.finger_0 frame_idx).map fun _ => ()),
   ("finger_1", (plot_tactile_data d.tactile.finger_1 frame_idx).map fun _ => ()),
   ("finger_2", (plot_tactile_data d.tactile.finger_2 frame_idx).map fun _ => ()),
   ("palm", (plot_tactile_data d.tactile.palm frame_idx).map fun _ => ()),
   ("all_sensors", match frame_idx with
     | some fi => (plot_all_tactile_comparison d.tactile fi).map fun _ => ()
     | none => .ok ())]

/-- The single `try`/`except` of `main` (src/app.py lines 523-583) wrapped
around all the tab bodies: the views render sequentially until the first
raised error, which the one session-level handler reports; every later view
never renders. Returns the names of the views that rendered and the
reported error, if any. -/
def runMainViews : List (String × Except String Unit) → List String × Option String
  | [] => ([], none)
  | (n, .ok _) :: rest =>
    let (done, err) := runMainViews rest
    (n :: done, err)
  | (_, .error e) :: _ => ([], some e)

/-- The concrete document of the C4 counterexample: every sensor healthy at
frame 2 except `finger_1`, which holds a single frame, so its tactile
rendering raises `IndexError` at `tactile[2]`. -/
def c4data : SideData :=
  { wrist_pose := [[0, 0, 0, 1, 0, 0, 0], [0, 0, 0, 1, 0, 0, 0],
      [0, 0, 0, 1, 0, 0, 0]],
    joint_states := [[0], [0], [0]],
    tactile := ⟨[[1], [1], [1]], [[1]], [[1], [1], [1]], [[1], [1], [1]]⟩ }

/-- C4 (counterexample): at frame 2 of `c4data`, the failure inside the
`finger_1` tactile view aborts the whole try block — only the views before
it rendered, and in particular the healthy palm view never renders. -/
theorem c4_counterexample_failure_aborts_siblings :
    runMainViews (mainViews c4data (some 2)) =
      (["wrist_pose", "joint_states", "finger_0"], some "IndexError") ∧
    "palm" ∉ (runMainViews (mainViews c4data (some 2))).1 := by
  constructor
  · rfl
  · intro hmem
    simp only [show runMainViews (mainViews c4data (some 2)) =
      (["wrist_pose", "joint_states", "finger_0"], some "IndexError") from rfl]
      at hmem
    simp at hmem

/-- C4 (amended): an error raised while rendering one sensor view aborts the
rendering of every later view — all tabs sit inside one session-level
`try`/`except`, which reports the first error; the views before the failing
one are unaffected. In particular a tactile failure at `finger_1` prevents
the palm view (and every other later tab) from rendering. -/
theorem c4_first_error_stops_later_views
    (pre : List (String × Except String Unit)) (n : String) (e : String)
    (post : List (String × Except String Unit))
    (hok : ∀ v ∈ pre, v.2 = .ok ()) :
    runMainViews (pre ++ (n, .error e) :: post) = (pre.map Prod.fst, some e) := by
  induction pre with
  | nil => rfl
  | cons v rest ih =>
    have hv : v.2 = .ok () := hok v (by simp)
    obtain ⟨nv, cv⟩ := v
    simp only at hv
    subst hv
    simp only [List.cons_append, runMainViews, List.append_eq,
      ih fun w hw => hok w (by simp [hw]), List.map_cons]

/-- C4 witness: the amended propagation at a concrete three-view sequence. -/
theorem c4_first_error_stops_later_views_witness :
    runMainViews [("wrist_pose", .ok ()), ("finger_1", .error "boom"),
      ("palm", .ok ())] = (["wrist_pose"], some "boom") :=
  c4_first_error_stops_later_views [("wrist_pose", .ok ())] "finger_1" "boom"
    [("palm", .ok ())] (fun v hv => by rw [List.mem_singleton.mp hv])

/-! ## The password-hash utility

`generate_password_hash.py` hashes a password with `hashlib.sha256` and
prints the hex digest; SHA-256 is embedded here over `Nat` with explicit
32-bit truncation. -/

/-- Truncation to a 32-bit word. -/
def w32 (n : Nat) : Nat := n % 2 ^ 32

/-- 32-bit right rotation of a 32-bit word. -/
def rotr (n x : Nat) : Nat := ((x >>> n) ||| (x <<< (32 - n))) % 2 ^ 32

/-- Bitwise complement within 32 bits. -/
def bnot32 (x : Nat) : Nat := x ^^^ (2 ^ 32 - 1)

/-- The SHA-256 choice function. -/
def ch (x y z : Nat) : Nat := (x &&& y) ^^^ (bnot32 x &&& z)

/-- The SHA-256 majority function. -/
def maj (x y z : Nat) : Nat := (x &&& y) ^^^ (x &&& z) ^^^ (y &&& z)

/-- Σ₀. -/
def bigSigma0 (x : Nat) : Nat := rotr 2 x ^^^ rotr 13 x ^^^ rotr 22 x

/-- Σ₁. -/
def bigSigma1 (x : Nat) : Nat := rotr 6 x ^^^ rotr 11 x ^^^ rotr 25 x

/-- σ₀. -/
def smallSigma0 (x : Nat) : Nat := rotr 7 x ^^^ rotr 18 x ^^^ (x >>> 3)

/-- σ₁. -/
def smallSigma1 (x : Nat) : Nat := rotr 17 x ^^^ rotr 19 x ^^^ (x >>> 10)

/-- The 64 SHA-256 round constants of FIPS 180-4 (the fractional parts of
the cube roots of the first 64 primes), written in decimal. -/
def K : List Nat :=
  [1116352408, 1899447441, 3049323471, 3921009573, 961987163, 1508970993,
   2453635748, 2870763221, 3624381080, 310598401, 607225278, 1426881987,
   1925078388, 2162078206, 2614888103, 3248222580, 3835390401, 4022224774,
   264347078, 604807628, 770255983, 1249150122, 1555081692, 1996064986,
   2554220882, 2821834349, 2952996808, 3210313671, 3336571891, 3584528711,
   113926993, 338241895, 666307205, 773529912, 1294757372, 1396182291,
   1695183700, 1986661051, 2177026350, 2456956037, 2730485921, 2820302411,
   3259730800, 3345764771, 3516065817, 3600352804, 4094571909, 275423344,
   430227734, 506948616, 659060556, 883997877, 958139571, 1322822218,
   1537002063, 1747873779, 1955562222, 2024104815, 2227730452, 2361852424,
   2428436474, 2756734187, 3204031479, 3329325298]

/-- The eight 32-bit working registers of SHA-256. -/
structure Hash8 where
  a : Nat
  b : Nat
  c : Nat
  d : Nat
  e : Nat
  f : Nat
  g : Nat
  h : Nat
deriving DecidableEq, Repr

/-- The SHA-256 initial hash value. -/
def sha256Init : Hash8 :=
  ⟨0x6a09e667, 0xbb67ae85, 0x3c6ef372, 0xa54ff53a,
   0x510e527f, 0x9b05688c, 0x1f83d9ab, 0x5be0cd19⟩

/-- One SHA-256 round with the constant/schedule pair `kw`. -/
def compressStep (st : Hash8) (kw : Nat × Nat) : Hash8 :=
  let t1 := w32 (st.h + bigSigma1 st.e + ch st.e st.f st.g + kw.1 + kw.2)
  let t2 := w32 (bigSigma0 st.a + maj st.a st.b st.c)
  ⟨w32 (t1 + t2), st.a, st.b, st.c, w32 (st.d + t1), st.e, st.f, st.g⟩

/-- Extend the 16 block words by `k` schedule words, each built from the
words 2, 7, 15 and 16 places back. -/
def extendWords : Nat → List Nat → List Nat
  | 0, ws => ws
  | k + 1, ws =>
    extendWords k (ws ++ [w32 (smallSigma1 (ws.getD (ws.length - 2) 0) +
      ws.getD (ws.length - 7) 0 + smallSigma0 (ws.getD (ws.length - 15) 0) +
      ws.getD (ws.length - 16) 0)])

/-- Compress one 512-bit block (16 big-endian words) into the state. -/
def compressBlock (st : Hash8) (block : List Nat) : Hash8 :=
  let l := (K.zip (extendWords 48 block)).foldl compressStep st
  ⟨w32 (st.a + l.a), w32 (st.b + l.b), w32 (st.c + l.c), w32 (st.d + l.d),
   w32 (st.e + l.e), w32 (st.f + l.f), w32 (st.g + l.g), w32 (st.h + l.h)⟩

/-- Big-endian 4-byte groups to 32-bit words. -/
def bytesToWords : List Nat → List Nat
  | b0 :: b1 :: b2 :: b3 :: rest =>
    (((b0 * 256 + b1) * 256 + b2) * 256 + b3) :: bytesToWords rest
  | _ => []

/-- The `k` big-endian bytes of `n`. -/
def beBytes : Nat → Nat → List Nat
  | 0, _ => []
  | k + 1, n => beBytes k (n / 256) ++ [n % 256]

/-- SHA-256 padding: `0x80`, zeros up to 56 mod 64, then the 8-byte
big-endian bit length. -/
def padMessage (msg : List Nat) : List Nat :=
  msg ++ [0x80] ++ List.replicate ((64 - (msg.length + 9) % 64) % 64) 0 ++
    beBytes 8 (8 * msg.length)

/-- Cut a byte list into 64-byte blocks; structural recursion on a fuel
bound (one unit per block, so the byte count is always enough). -/
def chunksAux : Nat → List Nat → List (List Nat)
  | 0, _ => []
  | _ + 1, [] => []
  | fuel + 1, b :: rest => ((b :: rest).take 64) :: chunksAux fuel ((b :: rest).drop 64)

/-- The padded message cut into 64-byte blocks. -/
def chunks64 (bs : List Nat) : List (List Nat) :=
  chunksAux bs.length bs

/-- The SHA-256 digest state of a byte message. -/
def sha256Words (msg : List Nat) : Hash8 :=
  ((chunks64 (padMessage msg)).map bytesToWords).foldl compressBlock sha256Init

/-- One lowercase hex digit. -/
def hexChar (n : Nat) : Char :=
  "0123456789abcdef".toList.getD n '0'

/-- The 8 lowercase hex digits of one 32-bit word. -/
def wordHex (x : Nat) : List Char :=
  (List.range 8).map fun i => hexChar (x / 16 ^ (7 - i) % 16)

/-- The eight state words in output order. -/
def Hash8.words (st : Hash8) : List Nat :=
  [st.a, st.b, st.c, st.d, st.e, st.f, st.g, st.h]

/-- `hashlib.sha256(msg).hexdigest()`. -/
def sha256hex (msg : List Nat) : String :=
  String.mk ((sha256Words msg).words.map wordHex).flatten

/-- The UTF-8 encoding of one code point (1 to 4 bytes). -/
def utf8Char (c : Nat) : List Nat :=
  if c < 0x80 then [c]
  else if c < 0x800 then [0xC0 ||| (c >>> 6), 0x80 ||| (c &&& 0x3F)]
  else if c < 0x10000 then
    [0xE0 ||| (c >>> 12), 0x80 ||| ((c >>> 6) &&& 0x3F), 0x80 ||| (c &&& 0x3F)]
  else
    [0xF0 ||| (c >>> 18), 0x80 ||| ((c >>> 12) &&& 0x3F),
     0x80 ||| ((c >>> 6) &&& 0x3F), 0x80 ||| (c &&& 0x3F)]

/-- `password.encode()`: the UTF-8 bytes of the string. -/
def utf8Bytes (s : String) : List Nat :=
  (s.data.map fun c => utf8Char c.toNat).flatten

/-- `hash_password` (src/generate_password_hash.py lines 10-12):
`hashlib.sha256(password.encode()).hexdigest()`. -/
def hash_password (password : String) : String :=
  sha256hex (utf8Bytes password)

/-- `main` of the utility (src/generate_password_hash.py lines 14-59): the
password is `sys.argv[1]` when present, the interactive input otherwise; an
empty password is rejected before any hash is computed, and otherwise the
one hash of the password is printed. -/
def password_main (argv1 : Option String) (typed : String) : Option String :=
  let password := argv1.getD typed
  if password = "" then none else some (hash_password password)

/-- Known-answer check of the embedding: the SHA-256 digest of `"abc"`. -/
theorem sha256hex_abc : sha256hex (utf8Bytes "abc") =
    "ba7816bf8f01cfea414140de5dae2223b00361a396177a9cb410ff61f20015ad" := by
  decide

/-- Every word prints as exactly 8 hex characters. -/
theorem wordHex_length (x : Nat) : (wordHex x).length = 8 := by
  simp [wordHex]

/-- A value below 16 prints as one of the sixteen hex digit characters. -/
theorem hexChar_mem (n : Nat) (h : n < 16) :
    hexChar n ∈ "0123456789abcdef".data := by
  interval_cases n <;> decide

/-- Every SHA-256 hex digest has exactly 64 characters. -/
theorem sha256hex_length (msg : List Nat) : (sha256hex msg).length = 64 := by
  show ((sha256Words msg).words.map wordHex).flatten.length = 64
  simp [Hash8.words, wordHex]

/-- Every character of a SHA-256 hex digest is a hex digit. -/
theorem sha256hex_chars (msg : List Nat) :
    ∀ c ∈ (sha256hex msg).data, c ∈ "0123456789abcdef".data := by
  intro c hc
  have hc' : c ∈ ((sha256Words msg).words.map wordHex).flatten := hc
  rcases List.mem_flatten.mp hc' with ⟨l, hl, hcl⟩
  rcases List.mem_map.mp hl with ⟨w, _, rfl⟩
  rcases List.mem_map.mp hcl with ⟨i, _, rfl⟩
  exact hexChar_mem _ (Nat.mod_lt _ (by norm_num))

/-- C9: the password utility is deterministic — the effective password fully
determines the output; its sole error path is the empty password, rejected
without hashing; and every non-empty password yields exactly one output, the
SHA-256 hex digest of its UTF-8 encoding, always exactly 64 hexadecimal
characters. -/
theorem c9_password_hash_contract (argv1 : Option String) (typed : String) :
    (argv1.getD typed = "" → password_main argv1 typed = none) ∧
    (argv1.getD typed ≠ "" → password_main argv1 typed =
      some (sha256hex (utf8Bytes (argv1.getD typed)))) ∧
    (hash_password (argv1.getD typed)).length = 64 ∧
    (∀ c ∈ (hash_password (argv1.getD typed)).data,
      c ∈ "0123456789abcdef".data) ∧
    (∀ (argv1' : Option String) (typed' : String),
      argv1'.getD typed' = argv1.getD typed →
      password_main argv1' typed' = password_main argv1 typed) := by
  refine ⟨fun h => ?_, fun h => ?_, sha256hex_length _, sha256hex_chars _, ?_⟩
  · simp [password_main, h]
  · simp [password_main, h, hash_password]
  · intro a t heq
    simp only [password_main, heq]

end RobotViz
